import Mathlib

/-!
Verification of the link extraction, scoring and ranking pipeline and the
query-dispatch protocol of `combined_viewer.py` (email_easy repository),
as a shallow embedding in Lean 4.

Scores are modelled as rationals (`ℚ`); the Python source uses decimal
literals in tenths throughout.  Python substring containment (`a in b`) is
modelled by `containsSub` on character lists, and `str.lower()` by
character-wise lowering (`lowerL`); every constant the scorer checks is
ASCII, so this coincides with Python's semantics on the relevant inputs.
-/

/-- One hyperlink observation from the rendered DOM: display text + target. -/
structure LinkCandidate where
  text : String
  href : String
deriving Repr, DecidableEq

/-- A `LinkCandidate` together with its computed score (the dicts built by
`rank_links`). -/
structure ScoredLink where
  text : String
  href : String
  score : ℚ
deriving Repr, DecidableEq

/-- Python substring containment `needle in hay`, on character lists. -/
def containsSub : List Char → List Char → Bool
  | n, [] => n.isEmpty
  | n, c :: t => n.isPrefixOf (c :: t) || containsSub n t

/-- Python `s.lower()`, modelled as character-wise ASCII lowering. -/
def lowerL (s : String) : List Char := s.data.map Char.toLower

/-- `WHITELIST_DOMAINS` from combined_viewer.py (trusted-domain substrings). -/
def WHITELIST_DOMAINS : List String :=
  ["planhub.com", "buildingconnected.com", "constructconnect.com",
   "isqft.com", "procore.com"]

/-- `INTENT_WORDS` from combined_viewer.py (intent-phrase substrings). -/
def INTENT_WORDS : List String :=
  ["view project", "submit", "bid", "open invite", "project", "plans", "portal", "itb"]

/-- `HREF_HINTS` from combined_viewer.py (structural-hint substrings). -/
def HREF_HINTS : List String :=
  ["project", "bid", "invite", "itb", "plan", "rfi"]

/-- `NEGATIVE_HINTS` from combined_viewer.py (negative-hint substrings). -/
def NEGATIVE_HINTS : List String :=
  ["unsubscribe", "preferences", "kb.", "knowledge", "support", "terms", "privacy"]

/-- `score_link(href, text)` from combined_viewer.py, line for line:
lower both inputs, return `-999.0` on an empty href, otherwise accumulate
`+0.6` per whitelisted domain in the href, `+0.3` per intent word in the
text, `+0.1` once when the href holds at least 4 slashes, `+0.1` per href
hint, `-1.0` per negative hint. -/
def score_link (href text : String) : ℚ :=
  let href_l := lowerL href
  let text_l := lowerL text
  if href_l.isEmpty then -999.0
  else
    let score : ℚ := 0.0
    let score := WHITELIST_DOMAINS.foldl
      (fun s d => if containsSub d.data href_l then s + 0.6 else s) score
    let score := INTENT_WORDS.foldl
      (fun s w => if containsSub w.data text_l then s + 0.3 else s) score
    let score := if 4 ≤ href_l.count '/' then score + 0.1 else score
    let score := HREF_HINTS.foldl
      (fun s q => if containsSub q.data href_l then s + 0.1 else s) score
    let score := NEGATIVE_HINTS.foldl
      (fun s bad => if containsSub bad.data href_l then s - 1.0 else s) score
    score

/-- Number of entries of `subs` that occur as substrings of `s`. -/
def numMatches (subs : List String) (s : List Char) : ℕ :=
  (subs.filter (fun d => containsSub d.data s)).length

theorem foldl_if_add (c : ℚ) (p : String → Bool) (l : List String) (a : ℚ) :
    l.foldl (fun s d => if p d then s + c else s) a
      = a + c * (l.filter p).length := by
  induction l generalizing a with
  | nil => simp
  | cons x xs ih =>
    by_cases h : p x = true <;>
      simp only [List.foldl_cons, List.filter_cons, h, if_pos, if_neg,
        Bool.false_eq_true, ite_true, ite_false, List.length_cons, ih] <;>
      push_cast <;> ring

theorem foldl_if_sub (c : ℚ) (p : String → Bool) (l : List String) (a : ℚ) :
    l.foldl (fun s d => if p d then s - c else s) a
      = a - c * (l.filter p).length := by
  induction l generalizing a with
  | nil => simp
  | cons x xs ih =>
    by_cases h : p x = true <;>
      simp only [List.foldl_cons, List.filter_cons, h, if_pos, if_neg,
        Bool.false_eq_true, ite_true, ite_false, List.length_cons, ih] <;>
      push_cast <;> ring

theorem lowerL_isEmpty_iff (s : String) : (lowerL s).isEmpty = true ↔ s = "" := by
  cases s with
  | mk data =>
    cases data with
    | nil => simp [lowerL]
    | cons c cs =>
      simp only [lowerL, List.map_cons, List.isEmpty_cons, Bool.false_eq_true, false_iff]
      intro h
      have h2 : (c :: cs) = ([] : List Char) := congrArg String.data h
      simp at h2

theorem score_link_closed (href text : String) (h : href ≠ "") :
    score_link href text =
      0.6 * numMatches WHITELIST_DOMAINS (lowerL href)
        + 0.3 * numMatches INTENT_WORDS (lowerL text)
        + (if 4 ≤ (lowerL href).count '/' then (0.1 : ℚ) else 0)
        + 0.1 * numMatches HREF_HINTS (lowerL href)
        - 1.0 * numMatches NEGATIVE_HINTS (lowerL href) := by
  have hne : (lowerL href).isEmpty = false := by
    cases hcase : (lowerL href).isEmpty with
    | false => rfl
    | true => exact absurd ((lowerL_isEmpty_iff href).mp hcase) h
  simp only [score_link, hne, Bool.false_eq_true, if_neg, ite_false,
    numMatches, foldl_if_add, foldl_if_sub]
  by_cases hs : 4 ≤ (lowerL href).count '/' <;>
    simp only [hs, ite_true, ite_false, if_pos, if_neg] <;> ring

/-- Claim C1: `score_link` follows the additive heuristic: empty href
short-circuits to `-999`; otherwise the score is `0.6` per trusted-domain
substring of the lowered href, plus `0.3` per intent phrase in the lowered
text, plus `0.1` once when the href has at least 4 slashes, plus `0.1` per
structural hint, minus `1.0` per negative hint; and the result depends only
on the lower-cased inputs (case-insensitive matching). -/
theorem score_link_spec (href text : String) :
    (href = "" → score_link href text = -999) ∧
    (href ≠ "" →
      score_link href text =
        0.6 * numMatches WHITELIST_DOMAINS (lowerL href)
          + 0.3 * numMatches INTENT_WORDS (lowerL text)
          + (if 4 ≤ (lowerL href).count '/' then (0.1 : ℚ) else 0)
          + 0.1 * numMatches HREF_HINTS (lowerL href)
          - 1.0 * numMatches NEGATIVE_HINTS (lowerL href)) ∧
    (∀ href2 text2, lowerL href = lowerL href2 → lowerL text = lowerL text2 →
      score_link href text = score_link href2 text2) := by
  refine ⟨?_, score_link_closed href text, ?_⟩
  · intro h
    subst h
    have he : (lowerL "").isEmpty = true := by decide
    simp only [score_link, he, ite_true]
    norm_num
  · intro href2 text2 hh ht
    simp only [score_link, hh, ht]

/-- Witness for C1 at a concrete non-empty input. -/
theorem score_link_spec_witness :
    ("https://planhub.com/bid/1" : String) ≠ "" ∧
      score_link "https://planhub.com/bid/1" "bid" =
        0.6 * numMatches WHITELIST_DOMAINS (lowerL "https://planhub.com/bid/1")
          + 0.3 * numMatches INTENT_WORDS (lowerL "bid")
          + (if 4 ≤ (lowerL "https://planhub.com/bid/1").count '/' then (0.1 : ℚ) else 0)
          + 0.1 * numMatches HREF_HINTS (lowerL "https://planhub.com/bid/1")
          - 1.0 * numMatches NEGATIVE_HINTS (lowerL "https://planhub.com/bid/1") :=
  ⟨by decide, (score_link_spec "https://planhub.com/bid/1" "bid").2.1 (by decide)⟩

/-- Stable descending insertion of a scored link: `x` is placed before the
first element it strictly beats, and after every element with a score at
least its own (so earlier-inserted equal scores stay in front of later
ones when used by `sortByScoreDesc`). -/
def insertDesc (x : ScoredLink) : List ScoredLink → List ScoredLink
  | [] => [x]
  | y :: ys => if y.score ≤ x.score then x :: y :: ys else y :: insertDesc x ys

/-- Python `list.sort(key=lambda r: r["score"], reverse=True)`: a stable
descending sort by score, modelled as a stable insertion sort. -/
def sortByScoreDesc : List ScoredLink → List ScoredLink
  | [] => []
  | x :: xs => insertDesc x (sortByScoreDesc xs)

/-- The dict `{"text": ..., "href": ..., "score": score_link(href, text)}`
built for each candidate inside `rank_links`. -/
def scoreEntry (l : LinkCandidate) : ScoredLink :=
  ⟨l.text, l.href, score_link l.href l.text⟩

/-- `rank_links(links)` from combined_viewer.py: score every candidate in
input order, then sort descending by score (stably). -/
def rank_links (links : List LinkCandidate) : List ScoredLink :=
  sortByScoreDesc (links.map scoreEntry)

theorem insertDesc_perm (x : ScoredLink) (l : List ScoredLink) :
    List.Perm (insertDesc x l) (x :: l) := by
  induction l with
  | nil => exact List.Perm.refl _
  | cons y ys ih =>
    by_cases h : y.score ≤ x.score
    · simp [insertDesc, h]
    · simp only [insertDesc, h, ite_false]
      exact List.Perm.trans (List.Perm.cons y ih) (List.Perm.swap x y ys)

theorem sortByScoreDesc_perm (l : List ScoredLink) :
    List.Perm (sortByScoreDesc l) l := by
  induction l with
  | nil => exact List.Perm.refl _
  | cons x xs ih =>
    exact List.Perm.trans (insertDesc_perm x _) (List.Perm.cons x ih)

theorem pairwise_insertDesc (x : ScoredLink) (l : List ScoredLink)
    (h : l.Pairwise (fun a b => b.score ≤ a.score)) :
    (insertDesc x l).Pairwise (fun a b => b.score ≤ a.score) := by
  induction l with
  | nil => simp [insertDesc]
  | cons y ys ih =>
    rcases List.pairwise_cons.mp h with ⟨hy, hys⟩
    by_cases hc : y.score ≤ x.score
    · simp only [insertDesc, hc, ite_true]
      refine List.pairwise_cons.mpr ⟨?_, h⟩
      intro z hz
      rcases List.mem_cons.mp hz with rfl | hz2
      · exact hc
      · exact le_trans (hy z hz2) hc
    · simp only [insertDesc, hc, ite_false]
      refine List.pairwise_cons.mpr ⟨?_, ih hys⟩
      intro z hz
      have hz3 := (insertDesc_perm x ys).mem_iff.mp hz
      rcases List.mem_cons.mp hz3 with rfl | hz4
      · exact le_of_lt (lt_of_not_le hc)
      · exact hy z hz4

theorem pairwise_sortByScoreDesc (l : List ScoredLink) :
    (sortByScoreDesc l).Pairwise (fun a b => b.score ≤ a.score) := by
  induction l with
  | nil => simp [sortByScoreDesc]
  | cons x xs ih => exact pairwise_insertDesc x _ ih

theorem filter_insertDesc_eq (x : ScoredLink) (l : List ScoredLink) (s : ℚ)
    (hx : x.score = s) :
    (insertDesc x l).filter (fun r => decide (r.score = s))
      = x :: l.filter (fun r => decide (r.score = s)) := by
  induction l with
  | nil => simp [insertDesc, hx]
  | cons y ys ih =>
    by_cases hc : y.score ≤ x.score
    · simp only [insertDesc, hc, ite_true, List.filter_cons]
      simp [hx]
    · have hy : ¬ (y.score = s) := by
        intro he
        exact hc (le_of_eq (he.trans hx.symm))
      simp only [insertDesc, hc, ite_false, List.filter_cons]
      simp [hy, ih]

theorem filter_insertDesc_ne (x : ScoredLink) (l : List ScoredLink) (s : ℚ)
    (hx : ¬ (x.score = s)) :
    (insertDesc x l).filter (fun r => decide (r.score = s))
      = l.filter (fun r => decide (r.score = s)) := by
  induction l with
  | nil => simp [insertDesc, hx]
  | cons y ys ih =>
    by_cases hc : y.score ≤ x.score
    · simp [insertDesc, hc, hx]
    · simp only [insertDesc, hc, ite_false]
      by_cases hy : y.score = s <;> simp [List.filter_cons, hy, ih]

theorem filter_sortByScoreDesc (l : List ScoredLink) (s : ℚ) :
    (sortByScoreDesc l).filter (fun r => decide (r.score = s))
      = l.filter (fun r => decide (r.score = s)) := by
  induction l with
  | nil => rfl
  | cons x xs ih =>
    by_cases hx : x.score = s
    · rw [sortByScoreDesc, filter_insertDesc_eq x _ s hx, ih]
      simp [List.filter_cons, hx]
    · rw [sortByScoreDesc, filter_insertDesc_ne x _ s hx, ih]
      simp [List.filter_cons, hx]

/-- Claim C6: `rank_links` sorts the scored candidates in descending score
order; the sort is stable — for each score value, the entries carrying that
score appear in `all_scored` in exactly their input order (so among two
candidates with identical scores the earlier one ranks first); and the
output is a permutation of the scored input.  Determinism is inherent:
`rank_links` is a pure function of its argument. -/
theorem rank_links_sorted_stable (links : List LinkCandidate) :
    (rank_links links).Pairwise (fun a b => b.score ≤ a.score) ∧
    (∀ s : ℚ, (rank_links links).filter (fun r => decide (r.score = s))
        = (links.map scoreEntry).filter (fun r => decide (r.score = s))) ∧
    List.Perm (rank_links links) (links.map scoreEntry) :=
  ⟨pairwise_sortByScoreDesc _,
   fun s => filter_sortByScoreDesc _ s,
   sortByScoreDesc_perm _⟩

/-- The primary-portal choice of `_on_dom` (line 281):
`primary = ranked[0]["href"] if ranked and ranked[0]["score"] > 0.3 else None`. -/
def choosePrimary (ranked : List ScoredLink) : Option String :=
  match ranked with
  | [] => none
  | r :: _ => if (0.3 : ℚ) < r.score then some r.href else none

/-- The auxiliary list of `_on_dom` (line 291):
`[{"text": r["text"], "href": r["href"]} for r in ranked[1:6]]`. -/
def auxLinks (ranked : List ScoredLink) : List LinkCandidate :=
  ((ranked.drop 1).take 5).map (fun r => ⟨r.text, r.href⟩)

/-- The `links` section of the `email_data` record assembled in `_on_dom`. -/
structure RankedOut where
  primary : Option String
  aux : List LinkCandidate
  all_scored : List ScoredLink
deriving Repr, DecidableEq

/-- Ranking part of `_on_dom` (lines 279-292): rank, choose the primary,
keep the next five as auxiliary, keep the whole scored list. -/
def linksSection (links : List LinkCandidate) : RankedOut :=
  let ranked := rank_links links
  ⟨choosePrimary ranked, auxLinks ranked, ranked⟩

/-- Claim C2: the primary link is `some h` exactly when the ranked list is
non-empty, its top score strictly exceeds `0.3`, and `h` is the top entry's
href; whenever the top score is at most `0.3` (and when the list is empty)
the primary is absent. -/
theorem primary_threshold (links : List LinkCandidate) :
    (∀ h : String, (linksSection links).primary = some h ↔
      ∃ r rest, rank_links links = r :: rest ∧ (0.3 : ℚ) < r.score ∧ h = r.href) ∧
    (∀ r rest, rank_links links = r :: rest → r.score ≤ 0.3 →
      (linksSection links).primary = none) ∧
    (rank_links links = [] → (linksSection links).primary = none) := by
  refine ⟨?_, ?_, ?_⟩
  · intro h
    constructor
    · intro hp
      cases hr : rank_links links with
      | nil => simp [linksSection, choosePrimary, hr] at hp
      | cons r rest =>
        simp only [linksSection, choosePrimary, hr] at hp
        by_cases hc : (0.3 : ℚ) < r.score
        · rw [if_pos hc] at hp
          exact ⟨r, rest, rfl, hc, (Option.some_inj.mp hp).symm⟩
        · rw [if_neg hc] at hp
          exact absurd hp (by simp)
    · rintro ⟨r, rest, hr, hc, rfl⟩
      simp [linksSection, choosePrimary, hr, hc]
  · intro r rest hr hle
    simp [linksSection, choosePrimary, hr, not_lt.mpr hle]
  · intro hr
    simp [linksSection, choosePrimary, hr]

/-- Witness for C2: a single candidate scoring exactly `0.3` (intent word
"bid" in the text, nothing in the href) leaves the primary absent. -/
theorem primary_threshold_witness :
    rank_links [⟨"bid", "x"⟩] = [⟨"bid", "x", 0.3⟩] ∧
    (0.3 : ℚ) ≤ 0.3 ∧
    (linksSection [⟨"bid", "x"⟩]).primary = none := by
  have hsc : score_link "x" "bid" = 0.3 := by
    rw [score_link_closed "x" "bid" (by decide)]
    have h1 : numMatches WHITELIST_DOMAINS (lowerL "x") = 0 := by decide
    have h2 : numMatches INTENT_WORDS (lowerL "bid") = 1 := by decide
    have h3 : (lowerL "x").count '/' = 0 := by decide
    have h4 : numMatches HREF_HINTS (lowerL "x") = 0 := by decide
    have h5 : numMatches NEGATIVE_HINTS (lowerL "x") = 0 := by decide
    rw [h1, h2, h3, h4, h5]
    norm_num
  have hr : rank_links [⟨"bid", "x"⟩] = [⟨"bid", "x", (0.3 : ℚ)⟩] := by
    simp [rank_links, scoreEntry, sortByScoreDesc, insertDesc, hsc]
  exact ⟨hr, le_rfl,
    (primary_threshold [⟨"bid", "x"⟩]).2.1 ⟨"bid", "x", 0.3⟩ [] hr le_rfl⟩

/-- Claim C7: every candidate yields a `ScoredLink` (`all_scored` is a
permutation of the scored input — negatively scored candidates are not
filtered out — and its length equals the input length); `auxiliary` is
exactly positions 1 through 5 of the descending-sorted list, hence at most
5 entries, independent of score sign and of whether the primary is set;
the empty input yields empty `all_scored`, absent primary and empty
auxiliary. -/
theorem ranked_out_shape (links : List LinkCandidate) :
    List.Perm (linksSection links).all_scored (links.map scoreEntry) ∧
    (linksSection links).all_scored.length = links.length ∧
    (linksSection links).aux
      = (((linksSection links).all_scored.drop 1).take 5).map
          (fun r => ⟨r.text, r.href⟩) ∧
    (linksSection links).aux.length ≤ 5 ∧
    linksSection [] = ⟨none, [], []⟩ := by
  refine ⟨sortByScoreDesc_perm _, ?_, rfl, ?_, rfl⟩
  · show (sortByScoreDesc (links.map scoreEntry)).length = links.length
    rw [(sortByScoreDesc_perm _).length_eq, List.length_map]
  · simp only [linksSection, auxLinks, List.length_map, List.length_take]
    exact min_le_left _ _

/-- The email pointer built by `get_newest_matching_email_html`: account,
mailbox, opaque message id, subject, lower-cased sender address. -/
structure EmailPointer where
  account : String
  mailbox : String
  message_id : Option String
  subject : String
  sender : String
deriving Repr, DecidableEq

/-- The `dom` section of `email_data`: visible text and the raw link list. -/
structure DomData where
  visible_text : String
  links : List LinkCandidate
deriving Repr, DecidableEq

/-- The `email_data` record assembled in `_on_dom`. -/
structure EmailData where
  email_ptr : EmailPointer
  dom : DomData
  links : RankedOut
deriving Repr, DecidableEq

/-- Python `"\n\n".join(parts)`. -/
def joinBlankLine : List String → String
  | [] => ""
  | [p] => p
  | p :: ps => p ++ "\n\n" ++ joinBlankLine ps

/-- `_compose_context` from combined_viewer.py (lines 348-356): build the
parts list in the fixed order header, body, links — appending a labeled
block per enabled checkbox — and join with a blank line.  The two
`json.dumps` serializations are modelled by the parameters `serPtr` and
`serLinks`. -/
def compose_context (serPtr : EmailPointer → String)
    (serLinks : List LinkCandidate → String) (d : EmailData)
    (header body links : Bool) : String :=
  let parts : List String := []
  let parts := if header then parts ++ ["Header:\n" ++ serPtr d.email_ptr] else parts
  let parts := if body then parts ++ ["Body:\n" ++ d.dom.visible_text] else parts
  let parts := if links then parts ++ ["Links:\n" ++ serLinks d.dom.links] else parts
  joinBlankLine parts

/-- Claim C8: the composer renders each enabled section as a labeled block
("Header:" / "Body:" / "Links:" plus the serialized content), concatenated
in the fixed order header, body, links, separated by a blank line; disabled
sections contribute nothing, and with all three flags false the result is
the empty string regardless of record contents.  Determinism is inherent:
`compose_context` is a pure function of the record, the serializers and the
flags. -/
theorem compose_context_cases (serPtr : EmailPointer → String)
    (serLinks : List LinkCandidate → String) (d : EmailData) :
    compose_context serPtr serLinks d false false false = "" ∧
    compose_context serPtr serLinks d true false false
      = "Header:\n" ++ serPtr d.email_ptr ∧
    compose_context serPtr serLinks d false true false
      = "Body:\n" ++ d.dom.visible_text ∧
    compose_context serPtr serLinks d false false true
      = "Links:\n" ++ serLinks d.dom.links ∧
    compose_context serPtr serLinks d true true false
      = "Header:\n" ++ serPtr d.email_ptr ++ "\n\n"
          ++ ("Body:\n" ++ d.dom.visible_text) ∧
    compose_context serPtr serLinks d true false true
      = "Header:\n" ++ serPtr d.email_ptr ++ "\n\n"
          ++ ("Links:\n" ++ serLinks d.dom.links) ∧
    compose_context serPtr serLinks d false true true
      = "Body:\n" ++ d.dom.visible_text ++ "\n\n"
          ++ ("Links:\n" ++ serLinks d.dom.links) ∧
    compose_context serPtr serLinks d true true true
      = "Header:\n" ++ serPtr d.email_ptr ++ "\n\n"
          ++ ("Body:\n" ++ d.dom.visible_text ++ "\n\n"
              ++ ("Links:\n" ++ serLinks d.dom.links)) := by
  refine ⟨rfl, rfl, rfl, rfl, rfl, rfl, rfl, rfl⟩

/-- Python `s.strip()`: drop leading and trailing whitespace. -/
def pyStrip (s : String) : String :=
  ⟨((s.data.dropWhile Char.isWhitespace).reverse.dropWhile Char.isWhitespace).reverse⟩

/-- Boolean "string `s` starts with `p`". -/
def beginsWith (p s : String) : Bool := p.data.isPrefixOf s.data

theorem isPrefixOf_append_self (l m : List Char) : l.isPrefixOf (l ++ m) = true := by
  induction l with
  | nil => cases m <;> simp [List.isPrefixOf]
  | cons c cs ih => simp [List.isPrefixOf, ih]

theorem isPrefixOf_refl_true (l : List Char) : l.isPrefixOf l = true := by
  have h := isPrefixOf_append_self l []
  simpa using h

theorem containsSub_append_self (pre l : List Char) :
    containsSub l (pre ++ l) = true := by
  induction pre with
  | nil =>
    cases l with
    | nil => rfl
    | cons c cs => simp [containsSub, isPrefixOf_refl_true]
  | cons p ps ih => simp [containsSub, ih]

theorem beginsWith_append (p s : String) : beginsWith p (p ++ s) = true := by
  simp [beginsWith, String.data_append, isPrefixOf_append_self]

/-- The mutable state of the chat session that `_send_to_llm` touches:
the extraction record (`self.email_data`), the conversation log
(`self.chat_display`, as its appended lines) and the input field
(`self.chat_input`). -/
structure ChatState where
  emailData : Option EmailData
  chatLog : List String
  chatInput : String
deriving Repr, DecidableEq

/-- The fixed instructional preamble of the full prompt in `_send_to_llm`. -/
def llmInstructions : String :=
  "You are a bid-invite extractor. Answer the user precisely.\n"
    ++ "If asked, extract fields as JSON using keys: project_name, address, zip, due_date, gc_name, contacts[], links.primary.\n"

/-- The placeholder line appended while a query is in flight. -/
def pendingLine : String := "Model: …"

/-- The full prompt assembled in `_send_to_llm`:
`f"{context}\n\n" + instructions + f"\nUser: {user_msg}"`. -/
def buildPrompt (context user_msg : String) : String :=
  context ++ "\n\n" ++ llmInstructions ++ "\nUser: " ++ user_msg

/-- The synchronous phase of `_send_to_llm` (lines 358-383): guard on a
missing extraction record, strip the input, guard on an empty message, and
otherwise log the user message, clear the input, log the placeholder and
dispatch the full prompt (the returned `Option String` is the prompt handed
to the worker pool, `none` when nothing is dispatched). -/
def send_to_llm (st : ChatState) (context : String) :
    ChatState × Option String :=
  match st.emailData with
  | none => ({ st with chatLog := st.chatLog ++ ["No email data yet."] }, none)
  | some _ =>
    let user_msg := pyStrip st.chatInput
    if user_msg = "" then (st, none)
    else
      ({ st with chatLog := st.chatLog ++ ["You: " ++ user_msg, pendingLine],
                 chatInput := "" },
       some (buildPrompt context user_msg))

/-- The worker task of `_send_to_llm`: the Ollama call either returns the
stripped response content, or any raised exception is caught and rendered
as `f"[ERROR] {e}"`. -/
def taskText (outcome : Except String String) : String :=
  match outcome with
  | .ok content => pyStrip content
  | .error e => "[ERROR] " ++ e

/-- The completion path `on_done`: the task's text is appended to the
conversation log as `f"Model: {txt}"`. -/
def deliverResult (st : ChatState) (outcome : Except String String) :
    ChatState :=
  { st with chatLog := st.chatLog ++ ["Model: " ++ taskText outcome] }

/-- Claim C10: with no extraction record yet, the send operation appends
"No email data yet." and dispatches nothing; with a record but an empty or
whitespace-only input it is a complete no-op (state unchanged, nothing
dispatched). -/
theorem send_guards (st : ChatState) (context : String) :
    (st.emailData = none →
      send_to_llm st context
        = ({ st with chatLog := st.chatLog ++ ["No email data yet."] }, none)) ∧
    (∀ d, st.emailData = some d → pyStrip st.chatInput = "" →
      send_to_llm st context = (st, none)) := by
  constructor
  · intro h
    simp [send_to_llm, h]
  · intro d hd hstrip
    simp [send_to_llm, hd, hstrip]

/-- A minimal concrete extraction record, used by the witnesses. -/
def sampleData : EmailData :=
  ⟨⟨"Commercial Estimator", "Inbox", none, "subject", "sender"⟩,
   ⟨"", []⟩, ⟨none, [], []⟩⟩

/-- Witness for C10: a session with no record, and one with a record but a
whitespace-only input. -/
theorem send_guards_witness :
    send_to_llm ⟨none, [], ""⟩ ""
      = (⟨none, ["No email data yet."], ""⟩, none) ∧
    send_to_llm ⟨some sampleData, ["You: hi"], "   "⟩ ""
      = (⟨some sampleData, ["You: hi"], "   "⟩, none) := by
  constructor
  · simpa using (send_guards ⟨none, [], ""⟩ "").1 rfl
  · exact (send_guards ⟨some sampleData, ["You: hi"], "   "⟩ "").2
      sampleData rfl (by decide)

/-- Claim C9: when the inference call fails, the delivered text is exactly
"[ERROR] " followed by the cause (so it begins with the error marker), it
is appended inline to the conversation log as a "Model: " line, the failure
touches nothing else in the session, and a subsequent non-empty query on a
session with a record is still dispatched. -/
theorem llm_error_flow (st : ChatState) (e context : String) :
    taskText (Except.error e) = "[ERROR] " ++ e ∧
    beginsWith "[ERROR] " (taskText (Except.error e)) = true ∧
    (deliverResult st (Except.error e)).chatLog
      = st.chatLog ++ ["Model: " ++ ("[ERROR] " ++ e)] ∧
    (deliverResult st (Except.error e)).emailData = st.emailData ∧
    (deliverResult st (Except.error e)).chatInput = st.chatInput ∧
    (∀ d, st.emailData = some d → pyStrip st.chatInput ≠ "" →
      (send_to_llm (deliverResult st (Except.error e)) context).2
        = some (buildPrompt context (pyStrip st.chatInput))) := by
  refine ⟨rfl, beginsWith_append "[ERROR] " e, rfl, rfl, rfl, ?_⟩
  intro d hd hstrip
  simp [send_to_llm, deliverResult, hd, hstrip]

/-- Witness for C9: after a failed call the session still dispatches the
next query. -/
theorem llm_error_flow_witness :
    (send_to_llm (deliverResult ⟨some sampleData, [], "hi"⟩
        (Except.error "boom")) "").2
      = some (buildPrompt "" (pyStrip "hi")) :=
  (llm_error_flow ⟨some sampleData, [], "hi"⟩ "boom" "").2.2.2.2.2
    sampleData rfl (by decide)

/-- The `email_data` record assembled in `_on_dom` (lines 283-293):
pointer, dom payload, and the links section computed from the ranked list. -/
def assembleEmailData (ptr : EmailPointer) (visible_text : String)
    (links : List LinkCandidate) : EmailData :=
  ⟨ptr, ⟨visible_text, links⟩, linksSection links⟩

/-- The message text of the "DOM Error" dialog in `_on_dom`'s handler:
`f"{e}\n\n{traceback.format_exc()}"` — the exception text, a blank line,
and the formatted stack trace `tb`. -/
def domErrorDialog (e tb : String) : String := e ++ "\n\n" ++ tb

/-- Observable outcome of one run of `_on_dom`: the record stored in
`self.email_data`, whether the dump file was written, which of the three
views were updated, and the message of the error dialog if one was shown. -/
structure OnDomOutcome where
  emailData : Option EmailData
  persisted : Bool
  detailsUpdated : Bool
  bodyUpdated : Bool
  linksUpdated : Bool
  errorDialog : Option String
deriving Repr, DecidableEq

/-- `_on_dom` (lines 274-305).  Its whole body sits in a single
try/except: the record is assembled and assigned to `self.email_data`,
then `email_output.json` is written, then the three views are updated.
`persistOutcome` is the outcome of the file write; when it raises,
control jumps to the `except` handler — which shows the "DOM Error"
dialog with the exception text and the formatted traceback `tb` — before
any of the three display calls run, so no view is updated (the record
itself was already assigned). -/
def on_dom (ptr : EmailPointer) (visible_text : String)
    (links : List LinkCandidate) (persistOutcome : Except String Unit)
    (tb : String) : OnDomOutcome :=
  let data := assembleEmailData ptr visible_text links
  match persistOutcome with
  | .ok _ =>
      { emailData := some data, persisted := true,
        detailsUpdated := true, bodyUpdated := true, linksUpdated := true,
        errorDialog := none }
  | .error e =>
      { emailData := some data, persisted := false,
        detailsUpdated := false, bodyUpdated := false, linksUpdated := false,
        errorDialog := some (domErrorDialog e tb) }

/-- Claim C3 is violated by the code (the claim itself states the spec's
intent): when writing `email_output.json` raises, the single try/except
around `_on_dom` routes control to the error dialog before the three
display calls, so none of the details, body and links views is updated —
while on a successful write all three are.  The assembled record itself
survives in both cases. -/
theorem persist_error_blocks_ui (ptr : EmailPointer) (vt : String)
    (links : List LinkCandidate) (e tb : String) :
    (on_dom ptr vt links (Except.error e) tb).detailsUpdated = false ∧
    (on_dom ptr vt links (Except.error e) tb).bodyUpdated = false ∧
    (on_dom ptr vt links (Except.error e) tb).linksUpdated = false ∧
    (on_dom ptr vt links (Except.error e) tb).errorDialog
      = some (domErrorDialog e tb) ∧
    (on_dom ptr vt links (Except.error e) tb).emailData
      = some (assembleEmailData ptr vt links) ∧
    (on_dom ptr vt links (Except.ok ()) tb).detailsUpdated = true ∧
    (on_dom ptr vt links (Except.ok ()) tb).bodyUpdated = true ∧
    (on_dom ptr vt links (Except.ok ()) tb).linksUpdated = true :=
  ⟨rfl, rfl, rfl, rfl, rfl, rfl, rfl, rfl⟩

/-- Counterexample to claim C4: at a concrete extraction error, the "DOM
Error" dialog message shown to the user contains the formatted stack trace
(the dialog is built as `f"{e}\n\n{traceback.format_exc()}"`), so it is
false that no stack trace is shown on any error path. -/
theorem dom_dialog_shows_trace_counterexample :
    containsSub ("Traceback (most recent call last):".data)
      ((domErrorDialog "ValueError: boom"
        "Traceback (most recent call last):\n  File combined_viewer.py line 297\nValueError: boom").data)
      = true := by decide

/-- Claim C4 as amended: the extraction/DOM error dialog is not a short
message only — it is the exception text followed by a blank line and the
formatted stack trace, which therefore appears verbatim in the dialog; the
inference error path, by contrast, shows only the short "[ERROR] cause"
line. -/
theorem dom_dialog_contains_trace (e tb : String) :
    domErrorDialog e tb = e ++ "\n\n" ++ tb ∧
    containsSub tb.data ((domErrorDialog e tb).data) = true ∧
    (∀ err, taskText (Except.error err) = "[ERROR] " ++ err) := by
  refine ⟨rfl, ?_, fun err => rfl⟩
  show containsSub tb.data ((e ++ "\n\n" ++ tb).data) = true
  rw [String.data_append]
  exact containsSub_append_self _ _

/-- The delay of `QTimer.singleShot(0, on_done)` in `_send_to_llm`: the
completion callback is scheduled on the control (UI) thread with a 0 ms
delay, i.e. it runs as soon as control returns to the event loop. -/
def onDoneTimerDelayMs : Nat := 0

/-- Milliseconds the control thread spends blocked inside `fut.result()`:
`on_done` starts on the control thread `onDoneTimerDelayMs` after
submission and then synchronously waits for the worker's network call,
which completes `workerMs` after submission. -/
def controlThreadBlockedMs (workerMs : Nat) : Nat :=
  workerMs - onDoneTimerDelayMs

/-- Claim C5 is violated by the code (the claim itself states the spec's
intent): the completion callback is scheduled on the control thread with a
zero delay and synchronously waits on the future, so for a network call
taking 1000 ms the control thread is blocked for 1000 ms; it is false that
the control thread never blocks on the network call. -/
theorem send_blocks_control_thread :
    onDoneTimerDelayMs = 0 ∧
    controlThreadBlockedMs 1000 = 1000 ∧
    ¬ (∀ workerMs, controlThreadBlockedMs workerMs = 0) := by
  refine ⟨rfl, rfl, fun h => ?_⟩
  have h1000 := h 1000
  simp [controlThreadBlockedMs, onDoneTimerDelayMs] at h1000
